import Mathlib

/-!
Build orchestration of `gulpfile.js`.

A shallow embedding of the task wiring of `gulpfile.js`: the task name table, the
folder configuration, the task registrations in source order, the bodies of the
task actions (as the sequence of calls they make), and the sequencing rules the
registrations are run under.
-/

set_option autoImplicit false

namespace Gulpfile

/-! ## Configuration values (`allGlob`, `source`, `build`, `task`) -/

def allGlob : String := "/**/*"

namespace source
def base : String := "./source"
def css : String := base ++ "/assets/css"
def cssFiles : String := css ++ "/**/*.css"
def img : String := base ++ "/assets/images"
def imgAll : String := img ++ allGlob
def fonts : String := base ++ "/assets/fonts"
def fontsAll : String := fonts ++ allGlob
def htmlFiles : String := base ++ "/**/*.html"
def js : String := base ++ "/assets/js"
def jsFiles : String := js ++ "/**/*.js"
def robotsFile : String := base ++ "/robots.txt"
def sitemapFile : String := base ++ "/sitemap.*"
def pluginsAll : String := base ++ "/assets/plugins/**/*.*"
def templates : String := base ++ "/pages/templates"
def templatePages : String := base ++ "/pages/*.pug"
def templatesAll : String := base ++ "/pages/**/*.pug"
end source

namespace build
def base : String := "./build"
def css : String := base ++ "/assets/css"
def img : String := base ++ "/assets/images"
def fonts : String := base ++ "/assets//fonts"
def js : String := base ++ "/assets/js"
def plugins : String := base ++ "/assets/plugins"
def catalog : String := base ++ "/catalog"
end build

namespace task
def clean : String := "clean"
def processCss : String := "process-css"
def processImg : String := "process-images"
def processFonts : String := "process-fonts"
def processHtml : String := "process-html"
def processJs : String := "process-js"
def processOther : String := "process-other"
def processAll : String := "process-build"
def webserver : String := "webserver"
def watchJs : String := "watch-js"
def watchCss : String := "watch-css"
def watchHtml : String := "watch-html"
def watchOther : String := "watch-other"
def watchPlugins : String := "watch-plugins"
def publish : String := "publish"
def publishWatch : String := "publish-watch"
def reload : String := "reload-browser"
def critical : String := "critical-css"
def processPlugins : String := "process-plugins"
def processTemplatePages : String := "process-template-pages"
def watchTemplates : String := "watch-templates"
def processCatalog : String := "process-catalog"
end task

/-! ## Registrations (`gulp.task` calls, in source order) -/

/-- Which function a `gulp.task` call registers as the action of the unit. -/
inductive ActionRef
  | noAction
  | runSequence (names : List String)
  | reloadIfReady
  | del
  | cssPipeline
  | imgPipeline
  | fontsPipeline
  | htmlPipeline
  | catalog
  | templatePagesPipeline
  | jsPipeline
  | otherPipelines
  | pluginsPipeline
  | reloadAndPublish
  | startWebserver
  | ftpUpload
  | criticalCss
  deriving DecidableEq, Repr

/-- One `gulp.task(name, dependencies, action)` call. -/
structure Registration where
  name : String
  dependencies : List String
  action : ActionRef
  deriving DecidableEq, Repr

/-- The arguments of `runSequence` in the action of `task.processAll`, before `done`. -/
def processAllSequence : List String :=
  [ task.clean,
    task.processImg, task.processFonts, task.processCss, task.processHtml, task.processJs,
    task.processPlugins, task.processOther, task.processTemplatePages,
    task.processCatalog,
    task.reload ]

/-- Every `gulp.task` call of the gulpfile, in the order the file makes them. -/
def gulpfile : List Registration :=
  [ ⟨"default", [task.webserver], .noAction⟩,
    ⟨task.processAll, [], .runSequence processAllSequence⟩,
    ⟨task.reload, [], .reloadIfReady⟩,
    ⟨task.clean, [], .del⟩,
    ⟨task.processCss, [], .cssPipeline⟩,
    ⟨task.processImg, [], .imgPipeline⟩,
    ⟨task.processFonts, [], .fontsPipeline⟩,
    ⟨task.processHtml, [], .htmlPipeline⟩,
    ⟨task.processCatalog, [], .catalog⟩,
    ⟨task.processTemplatePages, [], .templatePagesPipeline⟩,
    ⟨task.processJs, [], .jsPipeline⟩,
    ⟨task.processOther, [], .otherPipelines⟩,
    ⟨task.processPlugins, [], .pluginsPipeline⟩,
    ⟨task.watchHtml, [task.processHtml], .reloadAndPublish⟩,
    ⟨task.watchCss, [task.processCss], .reloadAndPublish⟩,
    ⟨task.watchJs, [task.processJs], .reloadAndPublish⟩,
    ⟨task.watchOther, [task.processOther], .reloadAndPublish⟩,
    ⟨task.watchPlugins, [task.processPlugins], .reloadAndPublish⟩,
    ⟨task.watchTemplates, [task.processTemplatePages], .reloadAndPublish⟩,
    ⟨task.webserver, [task.processAll], .startWebserver⟩,
    ⟨task.publish, [task.processAll], .ftpUpload⟩,
    ⟨task.critical, [task.processAll], .criticalCss⟩ ]

/-- The names of the registered units, in registration order. -/
def registeredNames (reg : List Registration) : List String :=
  reg.map (fun r => r.name)

/-- The registration stored under a name, if any. -/
def lookup (reg : List Registration) (name : String) : Option Registration :=
  reg.find? (fun r => r.name == name)

/-- The dependency list declared for a name (empty when the name is not registered). -/
def declaredDeps (reg : List Registration) (name : String) : List String :=
  match lookup reg name with
  | some r => r.dependencies
  | none => []

/-- The names a registration refers to: its dependency list and, for an action that
hands a sequence to `runSequence`, the names of that sequence. -/
def references (r : Registration) : List String :=
  r.dependencies ++
    (match r.action with
     | .runSequence names => names
     | _ => [])

/-! ## Sequencer: plan -/

inductive PlanError
  | notFound (name : String)
  | malformedPlan (name : String)
  deriving DecidableEq, Repr

deriving instance DecidableEq for Except

/-- Visit the names of a list from left to right, threading the plan built so far and
stopping at the first error. -/
def expand (f : List String → String → Except PlanError (List String)) :
    List String → List String → Except PlanError (List String)
  | planned, [] => .ok planned
  | planned, n :: rest =>
    match f planned n with
    | .ok planned' => expand f planned' rest
    | .error e => .error e

/-- Modelled from the spec: the depth-first expansion of `Sequencer.plan` (the sequencer
itself is the task runner the gulpfile is loaded by, not part of the gulpfile). A name
already planned is skipped; otherwise its dependencies are expanded first, in declared
order, and the name is emitted after them. A name that is not registered is a
`NotFoundError`; running out of depth (only possible on a dependency cycle) is the
defensive `MalformedPlanError`. -/
def visit (reg : List Registration) :
    Nat → List String → String → Except PlanError (List String)
  | 0, _, n => .error (.malformedPlan n)
  | fuel + 1, planned, n =>
    if n ∈ planned then .ok planned
    else
      match lookup reg n with
      | none => .error (.notFound n)
      | some r =>
        match expand (visit reg fuel) planned r.dependencies with
        | .ok planned' => .ok (planned' ++ [n])
        | .error e => .error e

/-- Modelled from the spec: `Sequencer.plan(requestedNames)`, the depth-first expansion
started from each requested name in order. The depth bound is one more than the number
of registered units, which no cycle-free dependency chain can reach. -/
def plan (reg : List Registration) (requestedNames : List String) :
    Except PlanError (List String) :=
  expand (visit reg (reg.length + 1)) [] requestedNames

/-! ## Sequencer: run -/

/-- The report of a run: the units that completed, in order, the unit that failed with
its cause (if any), and the state the run left behind. -/
structure RunReport (σ : Type) where
  completed : List String
  failed : Option (String × String)
  state : σ

/-- Modelled from the spec: `Sequencer.run(plan)`. The actions are executed strictly in
plan order, one at a time; an action returns the state it leaves and the cause of its
failure, if it failed. The run stops at the first failure, leaving the state as the
failed unit left it. -/
def run {σ : Type} (act : String → σ → σ × Option String) : List String → σ → RunReport σ
  | [], s => ⟨[], none, s⟩
  | n :: rest, s =>
    match act n s with
    | (s', some cause) => ⟨[], some (n, cause), s'⟩
    | (s', none) =>
      let r := run act rest s'
      ⟨n :: r.completed, r.failed, r.state⟩

/-- An action instrumented with a log of the unit names it was invoked for. -/
def logged {σ : Type} (act : String → σ → σ × Option String) :
    String → σ × List String → (σ × List String) × Option String :=
  fun n s => (((act n s.1).1, s.2 ++ [n]), (act n s.1).2)

/-! ## Task bodies -/

/-- A transform stage piped between `gulp.src` and the destination. -/
inductive Transform
  | cleanCSS
  | imagemin
  | htmlmin
  | pug
  | rename (name : String)
  | minify
  deriving DecidableEq, Repr

/-- An asynchronous operation started by a task body; it is still in flight when the
body returns. -/
inductive Async
  | del (glob : String)
  | pipeline (src : String) (transforms : List Transform) (dest : String)
  | upload (src : List String) (newerOnly : Bool) (destPath : Option String)
  | criticalGenerate
  deriving DecidableEq, Repr

/-- The calls a task body makes, in program order. -/
inductive Event
  | reload
  | init (baseDir : String)
  | gulpRun (name : String)
  | watch (glob : String) (tasks : List String)
  | start (op : Async)
  | log (msg : String)
  | done
  deriving DecidableEq, Repr

/-- What one invocation of a task body does: the calls it makes, the stream or promise
it returns to the task runner (if any), the value of `browserSyncReady` when it is left,
and the exception it throws instead of returning (if any). -/
structure Body where
  events : List Event
  returned : Option Async
  browserSyncReady : Bool
  thrown : Option String
  deriving DecidableEq, Repr

/-- One entry of `./source/data/categories.json`, as far as the gulpfile reads it. -/
structure Category where
  url : String
  deriving DecidableEq, Repr

/-- What the task bodies read from outside the gulpfile: `process.env`, the outcome of
`require('./source/data/categories.json')` (the parsed list, or the error thrown when
the file is missing or invalid), and the error each asynchronous operation ends with,
if any. -/
structure Inputs where
  env : String → Option String
  categories : Except String (List Category)
  failure : Async → Option String

/-- JavaScript truthiness of a `process.env` entry: defined and not the empty string. -/
def truthy : Option String → Bool
  | some v => v != ""
  | none => false

/-- The variable `browserSyncReady` as the gulpfile initialises it. -/
def browserSyncReady : Bool := false

/-- The body registered for `task.reload`. -/
def taskReload (ready : Bool) : Body :=
  { events := (if ready then [Event.reload] else []) ++ [Event.done],
    returned := none,
    browserSyncReady := ready,
    thrown := none }

/-- A body that starts one asynchronous operation and returns it. -/
def returning (op : Async) (ready : Bool) : Body :=
  { events := [Event.start op], returned := some op, browserSyncReady := ready,
    thrown := none }

def taskClean : Bool → Body :=
  returning (.del (build.base ++ allGlob))

def taskProcessCss : Bool → Body :=
  returning (.pipeline source.cssFiles [.cleanCSS] build.css)

def taskProcessImg : Bool → Body :=
  returning (.pipeline source.imgAll [.imagemin] build.img)

def taskProcessFonts : Bool → Body :=
  returning (.pipeline source.fontsAll [] build.fonts)

def taskProcessHtml : Bool → Body :=
  returning (.pipeline source.htmlFiles [.htmlmin] build.base)

/-- The pipeline `task.processCatalog` starts for one category. -/
def catalogPipeline (item : Category) : Async :=
  .pipeline (source.templates ++ "/cards.pug") [.pug, .rename (item.url ++ ".html")]
    (build.base ++ "/catalog/")

/-- The body registered for `task.processCatalog`: `require` the categories (an
exception when the file cannot be loaded), then one pipeline per category, none of them
returned, then `done()`. -/
def taskProcessCatalog (categories : Except String (List Category)) (ready : Bool) : Body :=
  match categories with
  | .error e =>
    { events := [], returned := none, browserSyncReady := ready, thrown := some e }
  | .ok items =>
    { events := items.map (fun item => Event.start (catalogPipeline item)) ++ [Event.done],
      returned := none,
      browserSyncReady := ready,
      thrown := none }

def taskProcessTemplatePages : Bool → Body :=
  returning (.pipeline source.templatePages [.pug] build.base)

def taskProcessJs : Bool → Body :=
  returning (.pipeline source.jsFiles [.minify] build.js)

/-- The body registered for `task.processOther`: the robots pipeline is started and
dropped, the sitemap pipeline is started and returned. -/
def taskProcessOther (ready : Bool) : Body :=
  { events := [Event.start (.pipeline source.robotsFile [] build.base),
               Event.start (.pipeline source.sitemapFile [] build.base)],
    returned := some (.pipeline source.sitemapFile [] build.base),
    browserSyncReady := ready,
    thrown := none }

/-- The body registered for `task.processPlugins`: a plain copy of the plugin files (the
comment inside the source body, taken over from the fonts task, speaks of font files). -/
def taskProcessPlugins : Bool → Body :=
  returning (.pipeline source.pluginsAll [] build.plugins)

/-- The helper `reloadAndPublish`, the body of every `watch-*` unit. -/
def reloadAndPublish (env : String → Option String) (ready : Bool) : Body :=
  { events := [Event.reload] ++
      (if truthy (env "PUBLISH") then [Event.gulpRun task.publish] else []) ++
      [Event.done],
    returned := none,
    browserSyncReady := ready,
    thrown := none }

/-- The `gulp.watch(glob, tasks)` calls of the webserver body, in order. -/
def watchBindings : List (String × List String) :=
  [ (source.jsFiles, [task.watchJs]),
    (source.htmlFiles, [task.watchHtml]),
    (source.cssFiles, [task.watchCss]),
    (source.robotsFile, [task.watchOther]),
    (source.sitemapFile, [task.watchOther]),
    (source.pluginsAll, [task.watchPlugins]),
    (source.templatesAll, [task.watchTemplates]) ]

/-- The body registered for `task.webserver`: start the server, set the flag, bind the
watchers. -/
def taskWebserver (_ready : Bool) : Body :=
  { events := [Event.init build.base] ++
      watchBindings.map (fun b => Event.watch b.1 b.2),
    returned := none,
    browserSyncReady := true,
    thrown := none }

/-- The field `connection.sourcePath`. -/
def connectionSourcePath : List String := [build.base ++ allGlob]

/-- The body registered for `task.publish`. -/
def taskPublish (env : String → Option String) (ready : Bool) : Body :=
  let newerOnly := !truthy (env "PUBLISH_ALL")
  let op := Async.upload connectionSourcePath newerOnly (env "FTP_PATH")
  { events := (if newerOnly then [Event.log "publishing only newer files"] else []) ++
      [Event.start op],
    returned := some op,
    browserSyncReady := ready,
    thrown := none }

/-- The body registered for `task.critical`. -/
def taskCritical (ready : Bool) : Body :=
  { events := [Event.log "Start generating critical CSS", Event.start .criticalGenerate,
               Event.done],
    returned := none,
    browserSyncReady := ready,
    thrown := none }

/-- The body an action reference stands for. A `runSequence` action has no body of its
own here: its nested run is unfolded by `execUnit`. -/
def body (inp : Inputs) : ActionRef → Bool → Body
  | .noAction, ready =>
    { events := [], returned := none, browserSyncReady := ready, thrown := none }
  | .runSequence _, ready =>
    { events := [], returned := none, browserSyncReady := ready, thrown := none }
  | .reloadIfReady, ready => taskReload ready
  | .del, ready => taskClean ready
  | .cssPipeline, ready => taskProcessCss ready
  | .imgPipeline, ready => taskProcessImg ready
  | .fontsPipeline, ready => taskProcessFonts ready
  | .htmlPipeline, ready => taskProcessHtml ready
  | .catalog, ready => taskProcessCatalog inp.categories ready
  | .templatePagesPipeline, ready => taskProcessTemplatePages ready
  | .jsPipeline, ready => taskProcessJs ready
  | .otherPipelines, ready => taskProcessOther ready
  | .pluginsPipeline, ready => taskProcessPlugins ready
  | .reloadAndPublish, ready => reloadAndPublish inp.env ready
  | .startWebserver, ready => taskWebserver ready
  | .ftpUpload, ready => taskPublish inp.env ready
  | .criticalCss, ready => taskCritical ready

/-! ## Completion of a body -/

/-- The asynchronous operations a body started. -/
def started (b : Body) : List Async :=
  b.events.filterMap (fun e => match e with
    | .start op => some op
    | _ => none)

/-- The asynchronous operations the completion signal of a body waits for: none when the
body called `done()` itself (the call happens before the body returns, while everything
it started is still in flight), otherwise the returned stream or promise. -/
def awaited (b : Body) : List Async :=
  if Event.done ∈ b.events then [] else b.returned.toList

/-- A body is atomic for the sequencer when its completion signal waits for every
asynchronous operation it started. -/
def atomic (b : Body) : Bool :=
  (started b).all (fun op => decide (op ∈ awaited b))

/-- The failure a body reports: the exception it threw, if it threw one; none for a
body that called `done()`; otherwise the error of the returned stream or promise, if it
ends with one. -/
def settle (inp : Inputs) (b : Body) : Option String :=
  match b.thrown with
  | some e => some e
  | none =>
    if Event.done ∈ b.events then none
    else
      match b.returned with
      | some op => inp.failure op
      | none => none

/-! ## Executing units -/

/-- The process state the bodies act on. -/
structure World where
  browserSyncReady : Bool
  trace : List Event
  deriving DecidableEq, Repr

/-- The state at startup: `browserSyncReady` as initialised, nothing called yet. -/
def World.startup : World := ⟨Gulpfile.browserSyncReady, []⟩

/-- Run the body of an action reference on the world. -/
def execBody (inp : Inputs) (a : ActionRef) (w : World) : World × Option String :=
  let b := body inp a w.browserSyncReady
  (⟨b.browserSyncReady, w.trace ++ b.events⟩, settle inp b)

/-- One step of a `runSequence` call: the named unit's body. -/
def execStep (inp : Inputs) (reg : List Registration) (name : String) (w : World) :
    World × Option String :=
  match lookup reg name with
  | none => (w, some ("not registered: " ++ name))
  | some r => execBody inp r.action w

/-- The action of a registered unit. For a `runSequence` action the named units are run
one after the other, stopping at the first failure, and `done` is called once the
sequence is over (with the failure, if there was one). -/
def execUnit (inp : Inputs) (reg : List Registration) (name : String) (w : World) :
    World × Option String :=
  match lookup reg name with
  | none => (w, some ("not registered: " ++ name))
  | some r =>
    match r.action with
    | .runSequence names =>
      let rep := run (execStep inp reg) names w
      (⟨rep.state.browserSyncReady, rep.state.trace ++ [Event.done]⟩,
        rep.failed.map (fun f => f.2))
    | a => execBody inp a w

/-- Start the named units from the command line or from a watcher: plan, then run. -/
def gulpStart (inp : Inputs) (reg : List Registration) (names : List String) (w : World) :
    Except PlanError (RunReport World) :=
  match plan reg names with
  | .ok p => .ok (run (execUnit inp reg) p w)
  | .error e => .error e

/-- The calls the body of a registered unit makes when it is invoked with the given
value of `browserSyncReady`. -/
def stepEvents (inp : Inputs) (reg : List Registration) (ready : Bool) (name : String) :
    List Event :=
  match lookup reg name with
  | some r => (body inp r.action ready).events
  | none => []

/-- The calls of the bodies of a list of units, one unit after the other. -/
def sequenceEvents (inp : Inputs) (reg : List Registration) (ready : Bool) :
    List String → List Event
  | [] => []
  | n :: rest => stepEvents inp reg ready n ++ sequenceEvents inp reg ready rest

/-- The events a run added to the trace. -/
def emitted (before after : World) : List Event :=
  after.trace.drop before.trace.length

/-! ## Transfer gate -/

/-- A file matched by `connection.sourcePath`, with its modification time. -/
structure LocalFile where
  path : String
  mtime : Nat
  deriving DecidableEq, Repr

/-- Modelled from the spec: the filter `conn.newer(destPath)` of the transfer
collaborator. `remote path` is the timestamp of the remote counterpart of a file, if
there is one; a file passes when it has no remote counterpart or is strictly newer. -/
def newer (remote : String → Option Nat) (f : LocalFile) : Bool :=
  match remote f.path with
  | some t => decide (t < f.mtime)
  | none => true

/-- The files the stream of `task.publish` hands to `conn.dest`: the files matched under
the build root, filtered by `conn.newer` unless `PUBLISH_ALL` is set. -/
def uploadSet (env : String → Option String) (remote : String → Option Nat)
    (files : List LocalFile) : List LocalFile :=
  if !truthy (env "PUBLISH_ALL") then files.filter (newer remote) else files

/-! ## Registration order -/

/-- The forward references of a list of registrations taken in order: the pairs
(unit, referenced name) where the referenced name is not among the names `seen`
registered before the unit. -/
def forwardReferences : List Registration → List String → List (String × String)
  | [], _ => []
  | r :: rest, seen =>
    ((references r).filter (fun d => decide (d ∉ seen))).map (fun d => (r.name, d)) ++
      forwardReferences rest (seen ++ [r.name])

/-! ## Dependency relation -/

/-- The name `b` is `a` itself or a transitive dependency of `a`. -/
def Reach (reg : List Registration) : String → String → Prop :=
  Relation.ReflTransGen (fun a b => b ∈ declaredDeps reg a)

/-- The invariant of an execution plan: no name twice, and every declared dependency of
a planned unit is planned at a smaller index. -/
def PlanInv (reg : List Registration) (p : List String) : Prop :=
  p.Nodup ∧ ∀ u ∈ p, ∀ d ∈ declaredDeps reg u, d ∈ p ∧ p.indexOf d < p.indexOf u

/-- A visiting function handles the name `m` well: from any plan that satisfies the
invariant it returns an extension that satisfies it, contains `m`, keeps what was
planned and adds only names reachable from `m`. -/
def Good (reg : List Registration) (f : List String → String → Except PlanError (List String))
    (m : String) : Prop :=
  ∀ acc, PlanInv reg acc →
    ∃ res, f acc m = .ok res ∧ PlanInv reg res ∧ m ∈ res ∧ (∀ u ∈ acc, u ∈ res) ∧
      (∀ u ∈ res, u ∈ acc ∨ Reach reg m u)

/-! ## Lemmas on `run` -/

theorem run_nil {σ : Type} (act : String → σ → σ × Option String) (s : σ) :
    run act [] s = ⟨[], none, s⟩ := rfl

theorem run_cons_ok {σ : Type} (act : String → σ → σ × Option String) (n : String)
    (rest : List String) (s s1 : σ) (h : act n s = (s1, none)) :
    run act (n :: rest) s =
      ⟨n :: (run act rest s1).completed, (run act rest s1).failed, (run act rest s1).state⟩ := by
  simp [run, h]

theorem run_cons_fail {σ : Type} (act : String → σ → σ × Option String) (n : String)
    (rest : List String) (s s1 : σ) (cause : String) (h : act n s = (s1, some cause)) :
    run act (n :: rest) s = ⟨[], some (n, cause), s1⟩ := by
  simp [run, h]

theorem run_completed_of_ok {σ : Type} (act : String → σ → σ × Option String) :
    ∀ (names : List String) (s : σ), (run act names s).failed = none →
      (run act names s).completed = names := by
  intro names
  induction names with
  | nil => intro s _; rfl
  | cons n rest ih =>
    intro s h
    rcases hact : act n s with ⟨s1, _ | cause⟩
    · rw [run_cons_ok act n rest s s1 hact] at h ⊢
      simp only at h ⊢
      rw [ih s1 h]
    · rw [run_cons_fail act n rest s s1 cause hact] at h
      simp at h

theorem run_append {σ : Type} (act : String → σ → σ × Option String) :
    ∀ (pre post : List String) (s : σ), (run act pre s).failed = none →
      run act (pre ++ post) s =
        ⟨pre ++ (run act post (run act pre s).state).completed,
          (run act post (run act pre s).state).failed,
          (run act post (run act pre s).state).state⟩ := by
  intro pre
  induction pre with
  | nil => intro post s _; rfl
  | cons n rest ih =>
    intro post s h
    rw [List.cons_append]
    rcases hact : act n s with ⟨s1, _ | cause⟩
    · rw [run_cons_ok act n rest s s1 hact] at h
      rw [run_cons_ok act n (rest ++ post) s s1 hact, run_cons_ok act n rest s s1 hact]
      simp only at h ⊢
      rw [ih post s1 h]
      rfl
    · rw [run_cons_fail act n rest s s1 cause hact] at h
      simp at h

theorem run_invariant {σ : Type} (act : String → σ → σ × Option String) (P : σ → Prop) :
    ∀ (names : List String) (s : σ), (∀ n ∈ names, ∀ t, P t → P (act n t).1) → P s →
      P (run act names s).state := by
  intro names
  induction names with
  | nil => intro s _ hs; exact hs
  | cons n rest ih =>
    intro s hstep hs
    have h1 : P (act n s).1 := hstep n (List.mem_cons_self _ _) s hs
    unfold run
    rcases hact : act n s with ⟨s1, _ | cause⟩
    · rw [hact] at h1
      exact ih s1 (fun m hm t ht => hstep m (List.mem_cons_of_mem _ hm) t ht) h1
    · rw [hact] at h1
      exact h1

theorem run_all_ok {σ : Type} (act : String → σ → σ × Option String) :
    ∀ (names : List String) (s : σ), (∀ n ∈ names, ∀ t, (act n t).2 = none) →
      (run act names s).failed = none := by
  intro names
  induction names with
  | nil => intro s _; rfl
  | cons n rest ih =>
    intro s h
    have h1 := h n (List.mem_cons_self _ _) s
    unfold run
    rcases hact : act n s with ⟨s1, _ | cause⟩
    · exact ih s1 (fun m hm t => h m (List.mem_cons_of_mem _ hm) t)
    · rw [hact] at h1
      simp at h1

theorem run_logged {σ : Type} (act : String → σ → σ × Option String) :
    ∀ (names : List String) (s : σ) (log : List String),
      (run (logged act) names (s, log)).completed = (run act names s).completed ∧
      (run (logged act) names (s, log)).failed = (run act names s).failed ∧
      (run (logged act) names (s, log)).state.1 = (run act names s).state ∧
      (run (logged act) names (s, log)).state.2 =
        log ++ (run act names s).completed ++
          (match (run act names s).failed with
           | some f => [f.1]
           | none => []) := by
  intro names
  induction names with
  | nil => intro s log; simp [run]
  | cons n rest ih =>
    intro s log
    unfold run
    rcases hact : act n s with ⟨s1, _ | cause⟩
    · have hl : logged act n (s, log) = ((s1, log ++ [n]), none) := by
        simp [logged, hact]
      rw [hl]
      obtain ⟨h1, h2, h3, h4⟩ := ih s1 (log ++ [n])
      simp only
      refine ⟨by rw [h1], h2, h3, ?_⟩
      rw [h4]
      simp
    · have hl : logged act n (s, log) = ((s1, log ++ [n]), some cause) := by
        simp [logged, hact]
      rw [hl]
      simp

/-! ## Lemmas on the registry and the bodies -/

theorem lookup_of_mem (reg : List Registration) (n : String)
    (h : n ∈ registeredNames reg) :
    ∃ r, lookup reg n = some r ∧ r.name = n ∧ r ∈ reg := by
  induction reg with
  | nil => simp [registeredNames] at h
  | cons r rest ih =>
    by_cases hr : r.name = n
    · exact ⟨r, by simp [lookup, List.find?, hr], hr, List.mem_cons_self _ _⟩
    · have h1 : n ∈ registeredNames rest := by
        simp only [registeredNames, List.map_cons, List.mem_cons] at h
        rcases h with h | h
        · exact absurd h.symm hr
        · exact h
      obtain ⟨r1, h2, h3, h4⟩ := ih h1
      refine ⟨r1, ?_, h3, List.mem_cons_of_mem _ h4⟩
      simp only [lookup] at h2 ⊢
      rw [List.find?_cons_of_neg _ (by simpa using hr)]
      exact h2

theorem lookup_some (reg : List Registration) (n : String) (r : Registration)
    (h : lookup reg n = some r) : r.name = n ∧ r ∈ reg := by
  unfold lookup at h
  exact ⟨by simpa using List.find?_some h, List.mem_of_find?_eq_some h⟩

theorem settle_of_no_failure (inp : Inputs) (h : ∀ op, inp.failure op = none) (b : Body)
    (hb : b.thrown = none) : settle inp b = none := by
  unfold settle
  rw [hb]
  simp only
  split
  · rfl
  · cases b.returned with
    | none => rfl
    | some op => exact h op

/-! ## The full build -/

theorem processAllSequence_steps_are_bodies :
    ∀ n ∈ processAllSequence, ∀ names, (lookup gulpfile n).map (fun r => r.action) ≠
      some (ActionRef.runSequence names) := by
  intro n hn names
  simp only [processAllSequence, List.mem_cons, List.mem_singleton, List.not_mem_nil,
    or_false] at hn
  rcases hn with rfl | rfl | rfl | rfl | rfl | rfl | rfl | rfl | rfl | rfl | rfl
  all_goals
    intro h
    have h2 : some _ = some (ActionRef.runSequence names) := (by rfl : _ = _).trans h
    cases h2

theorem body_keeps_flag (inp : Inputs) (a : ActionRef) (ready : Bool)
    (h : a ≠ ActionRef.startWebserver) : (body inp a ready).browserSyncReady = ready := by
  cases a <;> first
    | rfl
    | exact absurd rfl h
    | (simp only [body, taskProcessCatalog]; cases inp.categories <;> rfl)

theorem body_thrown_none (inp : Inputs) (items : List Category)
    (hcat : inp.categories = .ok items) (a : ActionRef) (ready : Bool) :
    (body inp a ready).thrown = none := by
  cases a <;> first
    | rfl
    | (simp only [body, taskProcessCatalog, hcat])

theorem execBody_ok (inp : Inputs) (a : ActionRef) (w : World)
    (hno : ∀ op, inp.failure op = none)
    (ht : (body inp a w.browserSyncReady).thrown = none) :
    execBody inp a w =
      (⟨(body inp a w.browserSyncReady).browserSyncReady,
         w.trace ++ (body inp a w.browserSyncReady).events⟩, none) := by
  simp only [execBody, settle_of_no_failure inp hno _ ht]

theorem sequence_registered : ∀ n ∈ processAllSequence, n ∈ registeredNames gulpfile := by
  decide

theorem sequence_not_webserver :
    ∀ n ∈ processAllSequence,
      (lookup gulpfile n).map (fun r => r.action) ≠ some ActionRef.startWebserver := by
  decide

theorem execStep_world (inp : Inputs) (n : String) (hn : n ∈ processAllSequence) (w : World) :
    (execStep inp gulpfile n w).1 =
      ⟨w.browserSyncReady, w.trace ++ stepEvents inp gulpfile w.browserSyncReady n⟩ := by
  obtain ⟨r, hr, -, -⟩ := lookup_of_mem gulpfile n (sequence_registered n hn)
  have hne : r.action ≠ ActionRef.startWebserver := by
    have := sequence_not_webserver n hn
    rw [hr] at this
    simpa using this
  simp only [execStep, stepEvents, hr, execBody, body_keeps_flag inp r.action _ hne]

theorem run_sequence_trace (inp : Inputs) :
    ∀ (names : List String), (∀ n ∈ names, n ∈ processAllSequence) → ∀ (w : World),
      ∃ k, k ≤ names.length ∧
        (run (execStep inp gulpfile) names w).state =
          ⟨w.browserSyncReady,
            w.trace ++ sequenceEvents inp gulpfile w.browserSyncReady (names.take k)⟩ ∧
        ((run (execStep inp gulpfile) names w).failed = none → k = names.length) := by
  intro names
  induction names with
  | nil =>
    intro _ w
    exact ⟨0, Nat.le_refl _, by simp [run, sequenceEvents], fun _ => rfl⟩
  | cons n rest ih =>
    intro hmem w
    have hw := execStep_world inp n (hmem n (List.mem_cons_self _ _)) w
    rcases hact : execStep inp gulpfile n w with ⟨w1, _ | cause⟩
    · rw [hact] at hw
      simp only at hw
      obtain ⟨k, hk, hstate, hfull⟩ := ih (fun m hm => hmem m (List.mem_cons_of_mem _ hm)) w1
      refine ⟨k + 1, by simp only [List.length_cons]; omega, ?_, ?_⟩
      · rw [run_cons_ok _ n rest w w1 hact]
        simp only
        rw [hstate, hw]
        simp [sequenceEvents, List.append_assoc]
      · rw [run_cons_ok _ n rest w w1 hact]
        simp only
        intro h
        rw [hfull h]
        rfl
    · rw [hact] at hw
      simp only at hw
      refine ⟨1, by simp, ?_, ?_⟩
      · rw [run_cons_fail _ n rest w w1 cause hact]
        simp only
        rw [hw]
        simp [sequenceEvents]
      · rw [run_cons_fail _ n rest w w1 cause hact]
        intro h
        simp at h

theorem sequenceEvents_processAll (inp : Inputs) (ready : Bool) :
    sequenceEvents inp gulpfile ready processAllSequence =
      [ Event.start (.del "./build/**/*"),
        Event.start (.pipeline "./source/assets/images/**/*" [.imagemin] "./build/assets/images"),
        Event.start (.pipeline "./source/assets/fonts/**/*" [] "./build/assets//fonts"),
        Event.start (.pipeline "./source/assets/css/**/*.css" [.cleanCSS] "./build/assets/css"),
        Event.start (.pipeline "./source/**/*.html" [.htmlmin] "./build"),
        Event.start (.pipeline "./source/assets/js/**/*.js" [.minify] "./build/assets/js"),
        Event.start (.pipeline "./source/assets/plugins/**/*.*" [] "./build/assets/plugins"),
        Event.start (.pipeline "./source/robots.txt" [] "./build"),
        Event.start (.pipeline "./source/sitemap.*" [] "./build"),
        Event.start (.pipeline "./source/pages/*.pug" [.pug] "./build") ] ++
      ((taskProcessCatalog inp.categories ready).events ++
        ((taskReload ready).events ++ [])) := by
  rfl

/-- C1: the action of `process-build` hands `runSequence` exactly the eleven names
clean, process-images, process-fonts, process-css, process-html, process-js,
process-plugins, process-other, process-template-pages, process-catalog, reload-browser;
no name is repeated, every name is a registered unit, clean is at a smaller index than
every other name and reload-browser at a larger one. Executing the unit `process-build`
invokes the bodies of a leading part of that sequence, one after the other in that
order and each once, then calls `done`; the leading part is the whole sequence whenever
the unit does not fail. When the categories load and no operation ends with an error,
the unit succeeds and the trace is the calls of the eleven bodies in order, then `done`,
and starting `process-build` completes exactly that unit. -/
theorem processAll_runs_sequence :
    lookup gulpfile task.processAll =
      some ⟨"process-build", [], .runSequence processAllSequence⟩ ∧
    processAllSequence =
      ["clean", "process-images", "process-fonts", "process-css", "process-html",
       "process-js", "process-plugins", "process-other", "process-template-pages",
       "process-catalog", "reload-browser"] ∧
    processAllSequence.Nodup ∧
    (∀ n ∈ processAllSequence, n ∈ registeredNames gulpfile) ∧
    (∀ n ∈ processAllSequence,
      (n ≠ "clean" →
        processAllSequence.indexOf "clean" < processAllSequence.indexOf n) ∧
      (n ≠ "reload-browser" →
        processAllSequence.indexOf n < processAllSequence.indexOf "reload-browser")) ∧
    (∀ (inp : Inputs) (w : World), ∃ k, k ≤ 11 ∧
      (execUnit inp gulpfile task.processAll w).1 =
        ⟨w.browserSyncReady,
          w.trace ++ sequenceEvents inp gulpfile w.browserSyncReady
            (processAllSequence.take k) ++ [Event.done]⟩ ∧
      ((execUnit inp gulpfile task.processAll w).2 = none → k = 11)) ∧
    (∀ (inp : Inputs) (w : World) (items : List Category),
      inp.categories = .ok items → (∀ op, inp.failure op = none) →
      execUnit inp gulpfile task.processAll w =
        (⟨w.browserSyncReady,
          w.trace ++
            ([ Event.start (.del "./build/**/*"),
               Event.start
                 (.pipeline "./source/assets/images/**/*" [.imagemin] "./build/assets/images"),
               Event.start (.pipeline "./source/assets/fonts/**/*" [] "./build/assets//fonts"),
               Event.start
                 (.pipeline "./source/assets/css/**/*.css" [.cleanCSS] "./build/assets/css"),
               Event.start (.pipeline "./source/**/*.html" [.htmlmin] "./build"),
               Event.start
                 (.pipeline "./source/assets/js/**/*.js" [.minify] "./build/assets/js"),
               Event.start
                 (.pipeline "./source/assets/plugins/**/*.*" [] "./build/assets/plugins"),
               Event.start (.pipeline "./source/robots.txt" [] "./build"),
               Event.start (.pipeline "./source/sitemap.*" [] "./build"),
               Event.start (.pipeline "./source/pages/*.pug" [.pug] "./build") ] ++
             items.map (fun item => Event.start
               (.pipeline "./source/pages/templates/cards.pug"
                 [.pug, .rename (item.url ++ ".html")] "./build/catalog/")) ++
             [Event.done] ++
             (if w.browserSyncReady then [Event.reload] else []) ++
             [Event.done, Event.done])⟩, none) ∧
      ∃ rep, gulpStart inp gulpfile [task.processAll] w = .ok rep ∧
        rep.completed = ["process-build"] ∧ rep.failed = none ∧
        rep.state = (execUnit inp gulpfile task.processAll w).1) := by
  have hgen : ∀ (inp : Inputs) (w : World), ∃ k, k ≤ 11 ∧
      (execUnit inp gulpfile task.processAll w).1 =
        ⟨w.browserSyncReady,
          w.trace ++ sequenceEvents inp gulpfile w.browserSyncReady
            (processAllSequence.take k) ++ [Event.done]⟩ ∧
      ((execUnit inp gulpfile task.processAll w).2 = none → k = 11) := by
    intro inp w
    obtain ⟨k, hk, hstate, hfull⟩ :=
      run_sequence_trace inp processAllSequence (fun n hn => hn) w
    refine ⟨k, hk, ?_, ?_⟩
    · show (⟨(run (execStep inp gulpfile) processAllSequence w).state.browserSyncReady,
        (run (execStep inp gulpfile) processAllSequence w).state.trace ++ [Event.done]⟩ : World)
          = _
      rw [hstate]
    · intro h
      have h1 : ((run (execStep inp gulpfile) processAllSequence w).failed.map
          (fun f => f.2)) = none := h
      have h2 : (run (execStep inp gulpfile) processAllSequence w).failed = none := by
        simpa using h1
      exact hfull h2
  refine ⟨by rfl, by rfl, by decide, by decide, by decide, hgen, ?_⟩
  intro inp w items hcat hno
  have hok : (run (execStep inp gulpfile) processAllSequence w).failed = none := by
    apply run_all_ok
    intro n hn t
    obtain ⟨r, hr, -, -⟩ := lookup_of_mem gulpfile n (sequence_registered n hn)
    simp only [execStep, hr, execBody]
    exact settle_of_no_failure inp hno _ (body_thrown_none inp items hcat _ _)
  have hsnd : (execUnit inp gulpfile task.processAll w).2 = none := by
    show ((run (execStep inp gulpfile) processAllSequence w).failed.map (fun f => f.2)) = none
    rw [hok]
    rfl
  obtain ⟨k, -, hstate, hfull⟩ := hgen inp w
  have hk : k = 11 := hfull hsnd
  subst hk
  have htake : processAllSequence.take 11 = processAllSequence := by rfl
  rw [htake, sequenceEvents_processAll, hcat] at hstate
  have hunit : execUnit inp gulpfile task.processAll w =
      (⟨w.browserSyncReady,
          w.trace ++
            ([ Event.start (.del "./build/**/*"),
               Event.start
                 (.pipeline "./source/assets/images/**/*" [.imagemin] "./build/assets/images"),
               Event.start (.pipeline "./source/assets/fonts/**/*" [] "./build/assets//fonts"),
               Event.start
                 (.pipeline "./source/assets/css/**/*.css" [.cleanCSS] "./build/assets/css"),
               Event.start (.pipeline "./source/**/*.html" [.htmlmin] "./build"),
               Event.start
                 (.pipeline "./source/assets/js/**/*.js" [.minify] "./build/assets/js"),
               Event.start
                 (.pipeline "./source/assets/plugins/**/*.*" [] "./build/assets/plugins"),
               Event.start (.pipeline "./source/robots.txt" [] "./build"),
               Event.start (.pipeline "./source/sitemap.*" [] "./build"),
               Event.start (.pipeline "./source/pages/*.pug" [.pug] "./build") ] ++
             items.map (fun item => Event.start
               (.pipeline "./source/pages/templates/cards.pug"
                 [.pug, .rename (item.url ++ ".html")] "./build/catalog/")) ++
             [Event.done] ++
             (if w.browserSyncReady then [Event.reload] else []) ++
             [Event.done, Event.done])⟩, none) := by
    refine Prod.ext ?_ hsnd
    rw [hstate]
    simp [taskProcessCatalog, taskReload, catalogPipeline, source.templates, source.base,
      build.base, List.append_assoc]
  have hplan : plan gulpfile [task.processAll] = .ok [task.processAll] := by rfl
  refine ⟨hunit, ⟨run (execUnit inp gulpfile) [task.processAll] w, ?_, ?_⟩⟩
  · simp only [gulpStart, hplan]
  rw [run_cons_ok (execUnit inp gulpfile) task.processAll [] w _ hunit]
  rw [hunit]
  exact ⟨by rfl, by rfl, by rfl⟩

/-- Witness for `processAll_runs_sequence`: with one category, no failing operation and
the startup state, the unit `process-build` succeeds with the calls of the eleven bodies
in order (no reload, the flag being false), then `done`. -/
theorem processAll_runs_sequence_witness :
    (execUnit ⟨fun _ => none, .ok [⟨"face"⟩], fun _ => none⟩ gulpfile task.processAll
      World.startup).2 = none ∧
    (execUnit ⟨fun _ => none, .ok [⟨"face"⟩], fun _ => none⟩ gulpfile task.processAll
      World.startup).1.trace =
      [ Event.start (.del "./build/**/*"),
        Event.start (.pipeline "./source/assets/images/**/*" [.imagemin] "./build/assets/images"),
        Event.start (.pipeline "./source/assets/fonts/**/*" [] "./build/assets//fonts"),
        Event.start (.pipeline "./source/assets/css/**/*.css" [.cleanCSS] "./build/assets/css"),
        Event.start (.pipeline "./source/**/*.html" [.htmlmin] "./build"),
        Event.start (.pipeline "./source/assets/js/**/*.js" [.minify] "./build/assets/js"),
        Event.start (.pipeline "./source/assets/plugins/**/*.*" [] "./build/assets/plugins"),
        Event.start (.pipeline "./source/robots.txt" [] "./build"),
        Event.start (.pipeline "./source/sitemap.*" [] "./build"),
        Event.start (.pipeline "./source/pages/*.pug" [.pug] "./build"),
        Event.start (.pipeline "./source/pages/templates/cards.pug"
          [.pug, .rename "face.html"] "./build/catalog/"),
        Event.done, Event.done, Event.done ] := by
  have h := (processAll_runs_sequence.2.2.2.2.2.2
    ⟨fun _ => none, .ok [⟨"face"⟩], fun _ => none⟩ World.startup [⟨"face"⟩] rfl
    (fun _ => rfl)).1
  rw [h]
  exact ⟨rfl, by decide⟩

/-! ## Stopping at the first failure -/

theorem watch_units :
    gulpfile.filter (fun r => decide (r.action = ActionRef.reloadAndPublish)) =
      [ ⟨"watch-html", ["process-html"], .reloadAndPublish⟩,
        ⟨"watch-css", ["process-css"], .reloadAndPublish⟩,
        ⟨"watch-js", ["process-js"], .reloadAndPublish⟩,
        ⟨"watch-other", ["process-other"], .reloadAndPublish⟩,
        ⟨"watch-plugins", ["process-plugins"], .reloadAndPublish⟩,
        ⟨"watch-templates", ["process-template-pages"], .reloadAndPublish⟩ ] := by
  decide

theorem emitted_append (w : World) (ready : Bool) (evs : List Event) :
    emitted w ⟨ready, w.trace ++ evs⟩ = evs := by
  simp [emitted]

theorem gulpStart_first_fails (inp : Inputs) (w : World) (x name cause : String)
    (hplan : plan gulpfile [name] = .ok [x, name])
    (hfail : (execUnit inp gulpfile x w).2 = some cause) :
    gulpStart inp gulpfile [name] w =
      .ok ⟨[], some (x, cause), (execUnit inp gulpfile x w).1⟩ := by
  unfold gulpStart
  rw [hplan]
  simp only
  rw [run_cons_fail (execUnit inp gulpfile) x [name] w _ cause (Prod.ext rfl hfail)]

/-- C3: a run stops at the first unit whose action fails. If the units of `pre` all
complete and the action of the next unit `n` fails with `cause`, the run of
`pre ++ n :: post` reports `pre` as completed in plan order and `n` as failed with
`cause`, leaves the state as `n` left it, and the log of invoked actions is
`pre ++ [n]`: no unit of `post` is attempted. For each `watch-*` unit the plan is
`[process-X, watch-X]`, and when `process-X` fails the run reports it, and neither
`browserSync.reload()` nor `gulp.run(publish)` is called. -/
theorem run_stops_at_first_failure :
    (∀ (σ : Type) (act : String → σ → σ × Option String) (pre post : List String)
        (n : String) (s s1 : σ) (cause : String),
      (run act pre s).failed = none →
      act n (run act pre s).state = (s1, some cause) →
        run act (pre ++ n :: post) s = ⟨pre, some (n, cause), s1⟩ ∧
        (run (logged act) (pre ++ n :: post) (s, [])).state.2 = pre ++ [n]) ∧
    (∀ r ∈ gulpfile, r.action = ActionRef.reloadAndPublish →
      ∃ x, r.dependencies = [x] ∧ plan gulpfile [r.name] = .ok [x, r.name] ∧
        ∀ (inp : Inputs) (w : World) (cause : String),
          (execUnit inp gulpfile x w).2 = some cause →
          ∃ rep, gulpStart inp gulpfile [r.name] w = .ok rep ∧
            rep.completed = [] ∧ rep.failed = some (x, cause) ∧
            Event.reload ∉ emitted w rep.state ∧
            Event.gulpRun task.publish ∉ emitted w rep.state) := by
  constructor
  · intro σ act pre post n s s1 cause hpre hfail
    have hrun : run act (pre ++ n :: post) s = ⟨pre, some (n, cause), s1⟩ := by
      rw [run_append act pre (n :: post) s hpre,
        run_cons_fail act n post _ s1 cause hfail]
      simp
    refine ⟨hrun, ?_⟩
    obtain ⟨-, -, -, h4⟩ := run_logged act (pre ++ n :: post) s []
    rw [h4, hrun]
    simp
  · intro r hr hact
    have hmem : r ∈ gulpfile.filter (fun r => decide (r.action = ActionRef.reloadAndPublish)) :=
      List.mem_filter.2 ⟨hr, by simpa using hact⟩
    rw [watch_units] at hmem
    simp only [List.mem_cons, List.mem_singleton, List.not_mem_nil, or_false] at hmem
    rcases hmem with rfl | rfl | rfl | rfl | rfl | rfl
    all_goals
      refine ⟨_, rfl, by rfl, ?_⟩
      intro inp w cause hfail
      refine ⟨_, gulpStart_first_fails inp w _ _ cause (by rfl) hfail, rfl, rfl, ?_, ?_⟩
      · show Event.reload ∉ emitted w ⟨w.browserSyncReady, w.trace ++ _⟩
        rw [emitted_append]
        simp [body, returning, taskProcessHtml, taskProcessCss, taskProcessJs,
          taskProcessOther, taskProcessPlugins, taskProcessTemplatePages]
      · show Event.gulpRun task.publish ∉ emitted w ⟨w.browserSyncReady, w.trace ++ _⟩
        rw [emitted_append]
        simp [body, returning, taskProcessHtml, taskProcessCss, taskProcessJs,
          taskProcessOther, taskProcessPlugins, taskProcessTemplatePages]

/-- Witness for `run_stops_at_first_failure`: with a css pipeline that ends with an
error, the run of `clean`, `process-css`, `process-html` reports `clean` completed and
`process-css` failed and never invokes `process-html`; and when the html pipeline ends
with an error, the run started for `watch-html` reports `process-html` as failed and
emits no reload. -/
theorem run_stops_at_first_failure_witness :
    ((run (execUnit ⟨fun _ => none, .ok [], fun op =>
          if op = Async.pipeline source.cssFiles [.cleanCSS] build.css then some "boom"
          else none⟩ gulpfile)
        (["clean"] ++ "process-css" :: ["process-html"]) World.startup).completed = ["clean"] ∧
      (run (execUnit ⟨fun _ => none, .ok [], fun op =>
          if op = Async.pipeline source.cssFiles [.cleanCSS] build.css then some "boom"
          else none⟩ gulpfile)
        (["clean"] ++ "process-css" :: ["process-html"]) World.startup).failed =
          some ("process-css", "boom") ∧
      (run (logged (execUnit ⟨fun _ => none, .ok [], fun op =>
          if op = Async.pipeline source.cssFiles [.cleanCSS] build.css then some "boom"
          else none⟩ gulpfile))
        (["clean"] ++ "process-css" :: ["process-html"]) (World.startup, [])).state.2 =
          ["clean"] ++ ["process-css"]) ∧
    ∃ rep, gulpStart ⟨fun _ => none, .ok [], fun _ => some "boom"⟩ gulpfile ["watch-html"]
        World.startup = .ok rep ∧
      rep.completed = [] ∧ rep.failed = some ("process-html", "boom") ∧
      Event.reload ∉ emitted World.startup rep.state ∧
      Event.gulpRun task.publish ∉ emitted World.startup rep.state := by
  constructor
  · have h := run_stops_at_first_failure.1 World
      (execUnit ⟨fun _ => none, .ok [], fun op =>
          if op = Async.pipeline source.cssFiles [.cleanCSS] build.css then some "boom"
          else none⟩ gulpfile)
      ["clean"] ["process-html"] "process-css" World.startup
      ⟨false, [Event.start (.del "./build/**/*"),
        Event.start (.pipeline "./source/assets/css/**/*.css" [.cleanCSS] "./build/assets/css")]⟩
      "boom" (by rfl) (by rfl)
    exact ⟨by rw [h.1], by rw [h.1], h.2⟩
  · obtain ⟨x, hx, -, h⟩ := run_stops_at_first_failure.2
      ⟨"watch-html", ["process-html"], .reloadAndPublish⟩ (by decide) rfl
    have hx1 : x = "process-html" := by simpa using hx.symm
    subst hx1
    exact h ⟨fun _ => none, .ok [], fun _ => some "boom"⟩ World.startup "boom" rfl

/-! ## Watch bindings -/

theorem emitted_append_append (w : World) (ready : Bool) (e1 e2 : List Event) :
    emitted w ⟨ready, w.trace ++ e1 ++ e2⟩ = e1 ++ e2 := by
  simp [emitted, List.append_assoc]

theorem notification_run (inp : Inputs) (w : World) (hno : ∀ op, inp.failure op = none)
    (x name : String) (a : ActionRef)
    (hplan : plan gulpfile [name] = .ok [x, name])
    (hx : ∀ t, execUnit inp gulpfile x t = execBody inp a t)
    (ha : (body inp a w.browserSyncReady).thrown = none)
    (hkeep : (body inp a w.browserSyncReady).browserSyncReady = w.browserSyncReady)
    (hn : ∀ t, execUnit inp gulpfile name t = execBody inp .reloadAndPublish t) :
    (gulpStart inp gulpfile [name] w).map
        (fun rep => (rep.completed, rep.failed, emitted w rep.state)) =
      .ok ([x, name], none,
        (body inp a w.browserSyncReady).events ++
          (reloadAndPublish inp.env w.browserSyncReady).events) := by
  have h1 : execUnit inp gulpfile x w =
      (⟨w.browserSyncReady, w.trace ++ (body inp a w.browserSyncReady).events⟩, none) := by
    rw [hx, execBody_ok inp a w hno ha, hkeep]
  have h2 : execUnit inp gulpfile name
        ⟨w.browserSyncReady, w.trace ++ (body inp a w.browserSyncReady).events⟩ =
      (⟨w.browserSyncReady, w.trace ++ (body inp a w.browserSyncReady).events ++
          (reloadAndPublish inp.env w.browserSyncReady).events⟩, none) := by
    rw [hn, execBody_ok inp .reloadAndPublish _ hno rfl]
    rfl
  simp only [gulpStart, hplan]
  rw [run_cons_ok _ x [name] w _ h1, run_cons_ok _ name [] _ _ h2]
  simp only [run_nil, Except.map, emitted_append_append]

/-- C4: the webserver body binds seven watchers (js, html and css files, `robots.txt`,
`sitemap.*`, the plugins and the pug templates); the plan of each bound unit is the
`watch-*` unit preceded by its `process-*` dependency; and when no operation ends with
an error, the run started on a notification of each binding completes exactly
`process-X` then `watch-X`, the trace it adds being the pipeline start(s) of `process-X`
followed by the reload, the optional publish and `done` of the `watch-X` reaction. -/
theorem watch_bindings_plan :
    (∀ ready, (taskWebserver ready).events.filterMap (fun e => match e with
        | .watch g ts => some (g, ts)
        | _ => none) = watchBindings) ∧
    watchBindings.map (fun b => (b.1, b.2, plan gulpfile b.2)) =
      [ ("./source/assets/js/**/*.js", ["watch-js"], .ok ["process-js", "watch-js"]),
        ("./source/**/*.html", ["watch-html"], .ok ["process-html", "watch-html"]),
        ("./source/assets/css/**/*.css", ["watch-css"], .ok ["process-css", "watch-css"]),
        ("./source/robots.txt", ["watch-other"], .ok ["process-other", "watch-other"]),
        ("./source/sitemap.*", ["watch-other"], .ok ["process-other", "watch-other"]),
        ("./source/assets/plugins/**/*.*", ["watch-plugins"],
          .ok ["process-plugins", "watch-plugins"]),
        ("./source/pages/**/*.pug", ["watch-templates"],
          .ok ["process-template-pages", "watch-templates"]) ] ∧
    (∀ (inp : Inputs) (w : World), (∀ op, inp.failure op = none) →
      watchBindings.map (fun b => (b.1, (gulpStart inp gulpfile b.2 w).map
          (fun rep => (rep.completed, rep.failed, emitted w rep.state)))) =
        [ ("./source/assets/js/**/*.js",
            .ok (["process-js", "watch-js"], none,
              [Event.start
                (.pipeline "./source/assets/js/**/*.js" [.minify] "./build/assets/js")] ++
              ([Event.reload] ++
                (if truthy (inp.env "PUBLISH") then [Event.gulpRun "publish"] else []) ++
                [Event.done]))),
          ("./source/**/*.html",
            .ok (["process-html", "watch-html"], none,
              [Event.start (.pipeline "./source/**/*.html" [.htmlmin] "./build")] ++
              ([Event.reload] ++
                (if truthy (inp.env "PUBLISH") then [Event.gulpRun "publish"] else []) ++
                [Event.done]))),
          ("./source/assets/css/**/*.css",
            .ok (["process-css", "watch-css"], none,
              [Event.start
                (.pipeline "./source/assets/css/**/*.css" [.cleanCSS] "./build/assets/css")] ++
              ([Event.reload] ++
                (if truthy (inp.env "PUBLISH") then [Event.gulpRun "publish"] else []) ++
                [Event.done]))),
          ("./source/robots.txt",
            .ok (["process-other", "watch-other"], none,
              [Event.start (.pipeline "./source/robots.txt" [] "./build"),
               Event.start (.pipeline "./source/sitemap.*" [] "./build")] ++
              ([Event.reload] ++
                (if truthy (inp.env "PUBLISH") then [Event.gulpRun "publish"] else []) ++
                [Event.done]))),
          ("./source/sitemap.*",
            .ok (["process-other", "watch-other"], none,
              [Event.start (.pipeline "./source/robots.txt" [] "./build"),
               Event.start (.pipeline "./source/sitemap.*" [] "./build")] ++
              ([Event.reload] ++
                (if truthy (inp.env "PUBLISH") then [Event.gulpRun "publish"] else []) ++
                [Event.done]))),
          ("./source/assets/plugins/**/*.*",
            .ok (["process-plugins", "watch-plugins"], none,
              [Event.start
                (.pipeline "./source/assets/plugins/**/*.*" [] "./build/assets/plugins")] ++
              ([Event.reload] ++
                (if truthy (inp.env "PUBLISH") then [Event.gulpRun "publish"] else []) ++
                [Event.done]))),
          ("./source/pages/**/*.pug",
            .ok (["process-template-pages", "watch-templates"], none,
              [Event.start (.pipeline "./source/pages/*.pug" [.pug] "./build")] ++
              ([Event.reload] ++
                (if truthy (inp.env "PUBLISH") then [Event.gulpRun "publish"] else []) ++
                [Event.done]))) ]) := by
  refine ⟨fun _ => by rfl, by decide, ?_⟩
  intro inp w hno
  have hjs := notification_run inp w hno task.processJs task.watchJs .jsPipeline
    (by rfl) (fun _ => rfl) rfl rfl (fun _ => rfl)
  have hhtml := notification_run inp w hno task.processHtml task.watchHtml .htmlPipeline
    (by rfl) (fun _ => rfl) rfl rfl (fun _ => rfl)
  have hcss := notification_run inp w hno task.processCss task.watchCss .cssPipeline
    (by rfl) (fun _ => rfl) rfl rfl (fun _ => rfl)
  have hother := notification_run inp w hno task.processOther task.watchOther .otherPipelines
    (by rfl) (fun _ => rfl) rfl rfl (fun _ => rfl)
  have hplugins := notification_run inp w hno task.processPlugins task.watchPlugins
    .pluginsPipeline (by rfl) (fun _ => rfl) rfl rfl (fun _ => rfl)
  have htemplates := notification_run inp w hno task.processTemplatePages
    task.watchTemplates .templatePagesPipeline (by rfl) (fun _ => rfl) rfl rfl (fun _ => rfl)
  simp only [watchBindings, List.map_cons, List.map_nil, hjs, hhtml, hcss, hother, hplugins,
    htemplates]
  rfl

/-- Witness for `watch_bindings_plan`: at the startup state with `PUBLISH` unset and no
failing operation, the run started by a change of a js file completes `process-js` then
`watch-js`, with the js pipeline started before the reload. -/
theorem watch_bindings_plan_witness :
    (gulpStart ⟨fun _ => none, .ok [], fun _ => none⟩ gulpfile ["watch-js"]
        World.startup).map (fun rep => (rep.completed, rep.failed, emitted World.startup
          rep.state)) =
      .ok (["process-js", "watch-js"], none,
        [ Event.start (.pipeline "./source/assets/js/**/*.js" [.minify] "./build/assets/js"),
          Event.reload, Event.done ]) := by
  have h := watch_bindings_plan.2.2 ⟨fun _ => none, .ok [], fun _ => none⟩ World.startup
    (fun _ => rfl)
  have h0 := congrArg (fun l => l.head?.map (fun p => p.2)) h
  simp only [watchBindings, List.map_cons, List.head?_cons, Option.map_some'] at h0
  exact Option.some.inj h0

/-! ## Post-run reaction -/

/-- C5 (the code at the failing state): with `browserSyncReady` false the helper
`reloadAndPublish` still calls `browserSync.reload()`, whatever the environment; started
from the command line at startup, `watch-html` completes with the flag still false and a
reload in the trace. -/
theorem reloadAndPublish_reloads_when_not_ready :
    (∀ env, Event.reload ∈ (reloadAndPublish env false).events) ∧
    (∃ rep, gulpStart ⟨fun _ => none, .ok [], fun _ => none⟩ gulpfile ["watch-html"]
        World.startup = .ok rep ∧
      rep.completed = ["process-html", "watch-html"] ∧ rep.failed = none ∧
      rep.state.browserSyncReady = false ∧ Event.reload ∈ rep.state.trace) := by
  refine ⟨fun env => by simp [reloadAndPublish], ⟨_, by rfl, by rfl, by rfl, by rfl, ?_⟩⟩
  decide

/-- C6: in `reloadAndPublish`, `gulp.run(publish)` is called if and only if `PUBLISH` is
set to a non-empty value, nothing else is ever run, the call comes after the reload, and
`done()` is called exactly once, as the last call, in both cases. -/
theorem reloadAndPublish_publish_iff (env : String → Option String) (ready : Bool) :
    (Event.gulpRun task.publish ∈ (reloadAndPublish env ready).events ↔
      ∃ v, env "PUBLISH" = some v ∧ v ≠ "") ∧
    (∀ name, Event.gulpRun name ∈ (reloadAndPublish env ready).events →
      name = task.publish) ∧
    (Event.gulpRun task.publish ∈ (reloadAndPublish env ready).events →
      (reloadAndPublish env ready).events.indexOf Event.reload <
        (reloadAndPublish env ready).events.indexOf (Event.gulpRun task.publish)) ∧
    (reloadAndPublish env ready).events.count Event.done = 1 ∧
    (reloadAndPublish env ready).events.getLast? = some Event.done := by
  unfold reloadAndPublish
  cases h : env "PUBLISH" with
  | none => simp [truthy]
  | some v =>
    by_cases hv : v = ""
    · subst hv
      simp [truthy]
    · simp only [truthy, bne_iff_ne, ne_eq, hv, not_false_eq_true, decide_True, ite_true]
      refine ⟨by simp [hv], by simp, fun _ => by decide, by decide, by rfl⟩

/-! ## Transfer gate -/

/-- C7: with `PUBLISH_ALL` unset or empty, no file whose remote counterpart has a
timestamp greater than or equal to its own is in the upload set; with `PUBLISH_ALL` set
to a non-empty value, the upload set is every file matched under the build root. -/
theorem uploadSet_incremental (env : String → Option String) (remote : String → Option Nat)
    (files : List LocalFile) :
    ((env "PUBLISH_ALL" = none ∨ env "PUBLISH_ALL" = some "") →
      (∀ f ∈ files, ∀ t, remote f.path = some t → f.mtime ≤ t →
        f ∉ uploadSet env remote files) ∧
      (∀ f ∈ files, (remote f.path = none ∨ ∃ t, remote f.path = some t ∧ t < f.mtime) →
        f ∈ uploadSet env remote files)) ∧
    ((∃ v, env "PUBLISH_ALL" = some v ∧ v ≠ "") → uploadSet env remote files = files) ∧
    (∀ ready, (taskPublish env ready).returned =
      some (Async.upload ["./build/**/*"] (!truthy (env "PUBLISH_ALL")) (env "FTP_PATH"))) := by
  refine ⟨?_, ?_, fun _ => by rfl⟩
  · intro h
    have ht : truthy (env "PUBLISH_ALL") = false := by
      rcases h with h | h <;> simp [h, truthy]
    constructor
    · intro f _ t hr hle
      simp [uploadSet, ht, newer, hr, Nat.not_lt.2 hle]
    · intro f hf hr
      rcases hr with hr | ⟨t, hr, hlt⟩
      · simp [uploadSet, ht, newer, hr, hf]
      · simp [uploadSet, ht, newer, hr, hf, hlt]
  · rintro ⟨v, hv, hne⟩
    simp [uploadSet, truthy, hv, hne]

/-! ## Registration order -/

/-- C8 as stated fails: taken in source order, the first registration, `default`, names
the dependency `webserver`, which no earlier `gulp.task` call has registered. -/
theorem gulpfile_has_forward_reference :
    gulpfile.head? = some ⟨"default", ["webserver"], .noAction⟩ ∧
    ("default", "webserver") ∈ forwardReferences gulpfile [] ∧
    ¬ (forwardReferences gulpfile [] = []) := by
  refine ⟨by rfl, by decide, by decide⟩

/-- C8 as amended: the forward references of the gulpfile are exactly `default` to
`webserver` and `process-build` to the eleven names of its sequence; every other unit
names only units registered before it, no name is registered twice, and once all
registrations are made every dependency name and every sequence name is registered. -/
theorem gulpfile_references_resolve :
    forwardReferences gulpfile [] =
      [ ("default", "webserver"),
        ("process-build", "clean"), ("process-build", "process-images"),
        ("process-build", "process-fonts"), ("process-build", "process-css"),
        ("process-build", "process-html"), ("process-build", "process-js"),
        ("process-build", "process-plugins"), ("process-build", "process-other"),
        ("process-build", "process-template-pages"), ("process-build", "process-catalog"),
        ("process-build", "reload-browser") ] ∧
    (registeredNames gulpfile).Nodup ∧
    (∀ r ∈ gulpfile, ∀ d ∈ references r, d ∈ registeredNames gulpfile) := by
  refine ⟨by decide, by decide, by decide⟩

/-! ## The readiness flag -/

theorem step_no_reload (inp : Inputs) (n : String) (hn : n ∈ processAllSequence)
    (w : World) (hw : w.browserSyncReady = false ∧ Event.reload ∉ w.trace) :
    (execStep inp gulpfile n w).1.browserSyncReady = false ∧
      Event.reload ∉ (execStep inp gulpfile n w).1.trace := by
  obtain ⟨hf, ht⟩ := hw
  simp only [processAllSequence, List.mem_cons, List.mem_singleton, List.not_mem_nil,
    or_false] at hn
  rcases hn with rfl | rfl | rfl | rfl | rfl | rfl | rfl | rfl | rfl | rfl | rfl
  · show (execBody inp .del w).1.browserSyncReady = false ∧ _ ∉ (execBody inp .del w).1.trace
    simp [execBody, body, taskClean, returning, hf, ht]
  · show (execBody inp .imgPipeline w).1.browserSyncReady = false ∧
      _ ∉ (execBody inp .imgPipeline w).1.trace
    simp [execBody, body, taskProcessImg, returning, hf, ht]
  · show (execBody inp .fontsPipeline w).1.browserSyncReady = false ∧
      _ ∉ (execBody inp .fontsPipeline w).1.trace
    simp [execBody, body, taskProcessFonts, returning, hf, ht]
  · show (execBody inp .cssPipeline w).1.browserSyncReady = false ∧
      _ ∉ (execBody inp .cssPipeline w).1.trace
    simp [execBody, body, taskProcessCss, returning, hf, ht]
  · show (execBody inp .htmlPipeline w).1.browserSyncReady = false ∧
      _ ∉ (execBody inp .htmlPipeline w).1.trace
    simp [execBody, body, taskProcessHtml, returning, hf, ht]
  · show (execBody inp .jsPipeline w).1.browserSyncReady = false ∧
      _ ∉ (execBody inp .jsPipeline w).1.trace
    simp [execBody, body, taskProcessJs, returning, hf, ht]
  · show (execBody inp .pluginsPipeline w).1.browserSyncReady = false ∧
      _ ∉ (execBody inp .pluginsPipeline w).1.trace
    simp [execBody, body, taskProcessPlugins, returning, hf, ht]
  · show (execBody inp .otherPipelines w).1.browserSyncReady = false ∧
      _ ∉ (execBody inp .otherPipelines w).1.trace
    simp [execBody, body, taskProcessOther, hf, ht]
  · show (execBody inp .templatePagesPipeline w).1.browserSyncReady = false ∧
      _ ∉ (execBody inp .templatePagesPipeline w).1.trace
    simp [execBody, body, taskProcessTemplatePages, returning, hf, ht]
  · show (execBody inp .catalog w).1.browserSyncReady = false ∧
      _ ∉ (execBody inp .catalog w).1.trace
    simp only [execBody, body, taskProcessCatalog, hf]
    cases inp.categories <;> simp [ht]
  · show (execBody inp .reloadIfReady w).1.browserSyncReady = false ∧
      _ ∉ (execBody inp .reloadIfReady w).1.trace
    simp [execBody, body, taskReload, hf, ht]

theorem processAll_no_reload (inp : Inputs) (w : World)
    (hw : w.browserSyncReady = false ∧ Event.reload ∉ w.trace) :
    (execUnit inp gulpfile task.processAll w).1.browserSyncReady = false ∧
      Event.reload ∉ (execUnit inp gulpfile task.processAll w).1.trace := by
  have h := run_invariant (execStep inp gulpfile)
    (fun t => t.browserSyncReady = false ∧ Event.reload ∉ t.trace) processAllSequence w
    (fun n hn t ht => step_no_reload inp n hn t ht) hw
  show (run (execStep inp gulpfile) processAllSequence w).state.browserSyncReady = false ∧
    Event.reload ∉ (run (execStep inp gulpfile) processAllSequence w).state.trace ++ [Event.done]
  refine ⟨h.1, ?_⟩
  simp [h.2]

/-- C9: the body of `reload-browser` calls `browserSync.reload()` if and only if
`browserSyncReady` is true and calls `done()` exactly once either way; the flag is false
at startup and only the webserver body changes it (to true); `webserver` is planned after
its dependency `process-build`, so the full build started at startup, and the whole run
of `default`, make no reload call. -/
theorem reload_gated_by_readiness :
    (∀ ready, (Event.reload ∈ (taskReload ready).events ↔ ready = true) ∧
      (taskReload ready).events.count Event.done = 1) ∧
    lookup gulpfile task.reload = some ⟨"reload-browser", [], .reloadIfReady⟩ ∧
    World.startup.browserSyncReady = false ∧
    (∀ inp a ready, a ≠ ActionRef.startWebserver →
      (body inp a ready).browserSyncReady = ready) ∧
    (∀ ready, (taskWebserver ready).browserSyncReady = true) ∧
    plan gulpfile [task.webserver] = .ok [task.processAll, task.webserver] ∧
    plan gulpfile ["default"] = .ok [task.processAll, task.webserver, "default"] ∧
    (∀ inp, (execUnit inp gulpfile task.processAll World.startup).1.browserSyncReady = false ∧
      Event.reload ∉ (execUnit inp gulpfile task.processAll World.startup).1.trace) ∧
    (∀ inp, ∃ rep, gulpStart inp gulpfile ["default"] World.startup = .ok rep ∧
      Event.reload ∉ rep.state.trace ∧
      (rep.failed = none → rep.state.browserSyncReady = true)) := by
  have hstart : World.startup.browserSyncReady = false ∧ Event.reload ∉ World.startup.trace :=
    ⟨rfl, by simp [World.startup]⟩
  refine ⟨?_, by rfl, rfl, body_keeps_flag, fun _ => rfl, by rfl, by rfl,
    fun inp => processAll_no_reload inp World.startup hstart, ?_⟩
  · intro ready
    cases ready <;> simp [taskReload]
  · intro inp
    refine ⟨run (execUnit inp gulpfile) [task.processAll, task.webserver, "default"]
      World.startup, by rfl, ?_⟩
    obtain ⟨-, h2⟩ := processAll_no_reload inp World.startup hstart
    rcases hact : execUnit inp gulpfile task.processAll World.startup with ⟨w1, _ | cause⟩
    · rw [hact] at h2
      rw [run_cons_ok _ _ _ _ w1 hact]
      have hweb : execUnit inp gulpfile task.webserver w1 =
          (⟨true, w1.trace ++ (taskWebserver w1.browserSyncReady).events⟩, none) := by rfl
      rw [run_cons_ok _ _ _ _ _ hweb]
      have hdef : execUnit inp gulpfile "default"
          ⟨true, w1.trace ++ (taskWebserver w1.browserSyncReady).events⟩ =
          (⟨true, w1.trace ++ (taskWebserver w1.browserSyncReady).events ++ []⟩, none) := by
        rfl
      rw [run_cons_ok _ _ _ _ _ hdef]
      simp only at h2
      refine ⟨?_, fun _ => by rfl⟩
      simp [run_nil, h2, taskWebserver, watchBindings]
    · rw [hact] at h2
      rw [run_cons_fail _ _ _ _ w1 cause hact]
      exact ⟨h2, fun h => by simp at h⟩

/-! ## Atomicity of the bodies -/

theorem started_catalog (cs : List Category) (ready : Bool) :
    started (taskProcessCatalog (.ok cs) ready) = cs.map catalogPipeline := by
  simp only [started, taskProcessCatalog, List.filterMap_append]
  induction cs with
  | nil => rfl
  | cons c rest ih =>
    simp only [List.map_cons, List.filterMap_cons, List.cons_append] at ih ⊢
    simpa using ih

/-- C10 (the code at the failing inputs): the body of `process-other` starts the robots
pipeline without waiting for it, and the body of `process-catalog`, for every non-empty
list of categories, calls `done()` while all its pipelines are in flight; the bodies of
the other nine units of the full build wait for everything they start. -/
theorem processOther_processCatalog_not_atomic :
    (∀ ready, atomic (taskProcessOther ready) = false ∧
      Async.pipeline "./source/robots.txt" [] "./build" ∈ started (taskProcessOther ready) ∧
      Async.pipeline "./source/robots.txt" [] "./build" ∉ awaited (taskProcessOther ready)) ∧
    (∀ c cs ready, atomic (taskProcessCatalog (.ok (c :: cs)) ready) = false ∧
      started (taskProcessCatalog (.ok (c :: cs)) ready) = (c :: cs).map catalogPipeline ∧
      awaited (taskProcessCatalog (.ok (c :: cs)) ready) = []) ∧
    (∀ inp ready, ∀ n ∈ processAllSequence, n ≠ task.processOther → n ≠ task.processCatalog →
      ∀ r, lookup gulpfile n = some r → atomic (body inp r.action ready) = true) := by
  refine ⟨fun ready => ⟨by rfl, by cases ready <;> decide, by cases ready <;> decide⟩, ?_, ?_⟩
  · intro c cs ready
    have hs : started (taskProcessCatalog (.ok (c :: cs)) ready) =
        (c :: cs).map catalogPipeline :=
      started_catalog (c :: cs) ready
    have ha : awaited (taskProcessCatalog (.ok (c :: cs)) ready) = [] := by
      simp [awaited, taskProcessCatalog]
    refine ⟨?_, hs, ha⟩
    simp [atomic, hs, ha]
  · intro inp ready n hn h1 h2 r hr
    simp only [processAllSequence, List.mem_cons, List.mem_singleton, List.not_mem_nil,
      or_false] at hn
    rcases hn with rfl | rfl | rfl | rfl | rfl | rfl | rfl | rfl | rfl | rfl | rfl
    all_goals first
      | exact absurd rfl h1
      | exact absurd rfl h2
      | (have hr2 : some r = _ := hr.symm.trans (by rfl)
         cases hr2
         cases ready <;> rfl)

/-! ## The plan respects the dependencies -/

/-- The example of the specification: with `images` depending on `clean`, requesting
`images` and `css` plans `clean`, `images`, `css`. -/
theorem plan_example :
    plan [⟨"clean", [], .del⟩, ⟨"images", ["clean"], .imgPipeline⟩, ⟨"css", [], .cssPipeline⟩]
      ["images", "css"] = .ok ["clean", "images", "css"] := by
  decide

theorem declaredDeps_of_lookup (reg : List Registration) (n : String) (r : Registration)
    (h : lookup reg n = some r) : declaredDeps reg n = r.dependencies := by
  simp [declaredDeps, h]

theorem declaredDeps_mem (reg : List Registration) (a b : String)
    (h : b ∈ declaredDeps reg a) :
    ∃ r, r ∈ reg ∧ r.name = a ∧ b ∈ r.dependencies := by
  unfold declaredDeps at h
  cases hl : lookup reg a with
  | none => rw [hl] at h; simp at h
  | some r =>
    rw [hl] at h
    obtain ⟨h1, h2⟩ := lookup_some reg a r hl
    exact ⟨r, h2, h1, h⟩

theorem rank_le_of_reach (reg : List Registration) (rank : String → Nat)
    (hwf : ∀ r ∈ reg, ∀ d ∈ r.dependencies, d ∈ registeredNames reg ∧ rank d < rank r.name)
    (a b : String) (h : Reach reg a b) : rank b ≤ rank a := by
  induction h with
  | refl => exact Nat.le_refl _
  | tail _ hstep ih =>
    obtain ⟨r, hr, hname, hd⟩ := declaredDeps_mem reg _ _ hstep
    have := (hwf r hr _ hd).2
    rw [hname] at this
    omega

theorem expand_good (reg : List Registration)
    (f : List String → String → Except PlanError (List String)) :
    ∀ (names : List String), (∀ m ∈ names, Good reg f m) →
      ∀ acc, PlanInv reg acc →
        ∃ res, expand f acc names = .ok res ∧ PlanInv reg res ∧ (∀ m ∈ names, m ∈ res) ∧
          (∀ u ∈ acc, u ∈ res) ∧ (∀ u ∈ res, u ∈ acc ∨ ∃ m ∈ names, Reach reg m u) := by
  intro names
  induction names with
  | nil =>
    intro _ acc hacc
    exact ⟨acc, rfl, hacc, by simp, fun u hu => hu, fun u hu => Or.inl hu⟩
  | cons m rest ih =>
    intro hgood acc hacc
    obtain ⟨res1, hf, hinv1, hm1, hsub1, hnew1⟩ := hgood m (List.mem_cons_self _ _) acc hacc
    obtain ⟨res2, he, hinv2, hall2, hsub2, hnew2⟩ :=
      ih (fun k hk => hgood k (List.mem_cons_of_mem _ hk)) res1 hinv1
    refine ⟨res2, ?_, hinv2, ?_, fun u hu => hsub2 u (hsub1 u hu), ?_⟩
    · simp only [expand, hf]
      exact he
    · intro k hk
      rcases List.mem_cons.1 hk with rfl | hk
      · exact hsub2 _ hm1
      · exact hall2 k hk
    · intro u hu
      rcases hnew2 u hu with h | ⟨k, hk, hreach⟩
      · rcases hnew1 u h with h | h
        · exact Or.inl h
        · exact Or.inr ⟨m, List.mem_cons_self _ _, h⟩
      · exact Or.inr ⟨k, List.mem_cons_of_mem _ hk, hreach⟩

theorem planInv_snoc (reg : List Registration) (p : List String) (n : String)
    (hp : PlanInv reg p) (hn : n ∉ p) (hdeps : ∀ d ∈ declaredDeps reg n, d ∈ p) :
    PlanInv reg (p ++ [n]) := by
  obtain ⟨hnd, hord⟩ := hp
  constructor
  · rw [List.nodup_append]
    refine ⟨hnd, List.nodup_singleton n, ?_⟩
    intro a ha hb
    rw [List.mem_singleton] at hb
    subst hb
    exact hn ha
  · intro u hu d hd
    rcases List.mem_append.1 hu with hu | hu
    · obtain ⟨h1, h2⟩ := hord u hu d hd
      refine ⟨List.mem_append_left _ h1, ?_⟩
      rw [List.indexOf_append_of_mem h1, List.indexOf_append_of_mem hu]
      exact h2
    · rw [List.mem_singleton] at hu
      subst hu
      have h1 := hdeps d hd
      refine ⟨List.mem_append_left _ h1, ?_⟩
      rw [List.indexOf_append_of_mem h1, List.indexOf_append_of_not_mem hn]
      have := List.indexOf_lt_length.2 h1
      omega

theorem visit_good (reg : List Registration) (rank : String → Nat)
    (hwf : ∀ r ∈ reg, ∀ d ∈ r.dependencies, d ∈ registeredNames reg ∧ rank d < rank r.name) :
    ∀ (fuel : Nat) (n : String), n ∈ registeredNames reg → rank n < fuel →
      Good reg (visit reg fuel) n := by
  intro fuel
  induction fuel with
  | zero => intro n _ h; omega
  | succ fuel ih =>
    intro n hn hrank acc hacc
    by_cases hmem : n ∈ acc
    · exact ⟨acc, by simp [visit, hmem], hacc, hmem, fun u hu => hu, fun u hu => Or.inl hu⟩
    · obtain ⟨r, hlook, hname, hr⟩ := lookup_of_mem reg n hn
      have hdd : declaredDeps reg n = r.dependencies := declaredDeps_of_lookup reg n r hlook
      have hgood : ∀ d ∈ r.dependencies, Good reg (visit reg fuel) d := by
        intro d hd
        obtain ⟨h1, h2⟩ := hwf r hr d hd
        rw [hname] at h2
        exact ih d h1 (by omega)
      obtain ⟨res, he, hinv, hall, hsub, hnew⟩ :=
        expand_good reg (visit reg fuel) r.dependencies hgood acc hacc
      have hnot : n ∉ res := by
        intro hin
        rcases hnew n hin with h | ⟨d, hd, hreach⟩
        · exact hmem h
        · have h1 := rank_le_of_reach reg rank hwf d n hreach
          have h2 := (hwf r hr d hd).2
          rw [hname] at h2
          omega
      refine ⟨res ++ [n], ?_, ?_, by simp, fun u hu => List.mem_append_left _ (hsub u hu), ?_⟩
      · simp [visit, hmem, hlook, he]
      · exact planInv_snoc reg res n hinv hnot (by rw [hdd]; exact hall)
      · intro u hu
        rcases List.mem_append.1 hu with hu | hu
        · rcases hnew u hu with h | ⟨d, hd, hreach⟩
          · exact Or.inl h
          · refine Or.inr (Relation.ReflTransGen.head ?_ hreach)
            rw [hdd]
            exact hd
        · rw [List.mem_singleton] at hu
          subst hu
          exact Or.inr Relation.ReflTransGen.refl

theorem planInv_closed (reg : List Registration) (p : List String) (hp : PlanInv reg p)
    (a b : String) (ha : a ∈ p) (h : Reach reg a b) : b ∈ p := by
  induction h with
  | refl => exact ha
  | tail _ hstep ih => exact (hp.2 _ ih _ hstep).1

theorem plan_of_ranked (reg : List Registration) (rank : String → Nat)
    (hwf : ∀ r ∈ reg, ∀ d ∈ r.dependencies, d ∈ registeredNames reg ∧ rank d < rank r.name)
    (hbound : ∀ r ∈ reg, rank r.name ≤ reg.length)
    (names : List String) (hnames : ∀ n ∈ names, n ∈ registeredNames reg) :
    ∃ p, plan reg names = .ok p ∧ PlanInv reg p ∧ (∀ n ∈ names, n ∈ p) ∧
      (∀ u ∈ p, ∃ n ∈ names, Reach reg n u) := by
  have hgood : ∀ m ∈ names, Good reg (visit reg (reg.length + 1)) m := by
    intro m hm
    obtain ⟨r, -, hname, hr⟩ := lookup_of_mem reg m (hnames m hm)
    have := hbound r hr
    rw [hname] at this
    exact visit_good reg rank hwf _ m (hnames m hm) (by omega)
  have hnil : PlanInv reg [] := ⟨List.nodup_nil, by simp⟩
  obtain ⟨res, he, hinv, hall, -, hnew⟩ :=
    expand_good reg (visit reg (reg.length + 1)) names hgood [] hnil
  refine ⟨res, he, hinv, hall, ?_⟩
  intro u hu
  rcases hnew u hu with h | h
  · simp at h
  · exact h

/-- C2: for every list of requested names drawn from the units the gulpfile registers
(whose dependency lists are: default on webserver; webserver, publish and critical-css on
process-build; each watch unit on its process unit; none for the others), the plan
exists, contains every requested name and every transitive dependency exactly once,
contains nothing else, and plans every declared dependency of a unit at a smaller index
than the unit. -/
theorem plan_gulpfile_respects_dependencies (names : List String)
    (hnames : ∀ n ∈ names, n ∈ registeredNames gulpfile) :
    gulpfile.map (fun r => (r.name, r.dependencies)) =
      [ ("default", ["webserver"]), ("process-build", []), ("reload-browser", []),
        ("clean", []), ("process-css", []), ("process-images", []), ("process-fonts", []),
        ("process-html", []), ("process-catalog", []), ("process-template-pages", []),
        ("process-js", []), ("process-other", []), ("process-plugins", []),
        ("watch-html", ["process-html"]), ("watch-css", ["process-css"]),
        ("watch-js", ["process-js"]), ("watch-other", ["process-other"]),
        ("watch-plugins", ["process-plugins"]),
        ("watch-templates", ["process-template-pages"]),
        ("webserver", ["process-build"]), ("publish", ["process-build"]),
        ("critical-css", ["process-build"]) ] ∧
    ∃ p, plan gulpfile names = .ok p ∧
      p.Nodup ∧
      (∀ n ∈ names, p.count n = 1) ∧
      (∀ n ∈ names, ∀ u, Reach gulpfile n u → p.count u = 1) ∧
      (∀ u ∈ p, ∀ d ∈ declaredDeps gulpfile u, d ∈ p ∧ p.indexOf d < p.indexOf u) ∧
      (∀ u ∈ p, ∃ n ∈ names, Reach gulpfile n u) := by
  refine ⟨by rfl, ?_⟩
  obtain ⟨p, hp, hinv, hall, hnew⟩ :=
    plan_of_ranked gulpfile
      (fun n => match plan gulpfile [n] with
        | .ok q => q.length
        | .error _ => 0)
      (by decide) (by decide) names hnames
  refine ⟨p, hp, hinv.1, ?_, ?_, hinv.2, hnew⟩
  · intro n hn
    exact List.count_eq_one_of_mem hinv.1 (hall n hn)
  · intro n hn u hreach
    exact List.count_eq_one_of_mem hinv.1
      (planInv_closed gulpfile p hinv n u (hall n hn) hreach)

/-- Witness for `plan_gulpfile_respects_dependencies`: `default`, `watch-js`, `publish`
and `watch-js` again are registered names, and their plan has `process-build` once. -/
theorem plan_gulpfile_respects_dependencies_witness :
    (∀ n ∈ ["default", "watch-js", "publish", "watch-js"], n ∈ registeredNames gulpfile) ∧
    ∃ p, plan gulpfile ["default", "watch-js", "publish", "watch-js"] = .ok p ∧
      p.Nodup ∧
      (∀ n ∈ ["default", "watch-js", "publish", "watch-js"], p.count n = 1) ∧
      (∀ n ∈ ["default", "watch-js", "publish", "watch-js"], ∀ u,
        Reach gulpfile n u → p.count u = 1) ∧
      (∀ u ∈ p, ∀ d ∈ declaredDeps gulpfile u, d ∈ p ∧ p.indexOf d < p.indexOf u) ∧
      (∀ u ∈ p, ∃ n ∈ ["default", "watch-js", "publish", "watch-js"], Reach gulpfile n u) :=
  ⟨by decide,
    (plan_gulpfile_respects_dependencies ["default", "watch-js", "publish", "watch-js"]
      (by decide)).2⟩

end Gulpfile
